import Mathlib

/-!
Shallow embedding of the Analemma-Vision-Engine core pipeline
(`src/analemma/calculator.py`, `src/analemma/sky_mapper.py`,
`src/analemma/image_anchor.py`) and proofs of the specification claims.

Conventions of the embedding:
* Python floats are modelled as real numbers `ℝ`; where the code only does
  ring/order operations on integer pixel data (the sun detector) we use `ℚ`/`ℕ`
  so that the definitions stay executable.
* `raise` is modelled by returning `Except.error` carrying the Python
  exception class that the source raises.
* External library calls (astropy's ephemeris, scipy's labelling) are
  modelled by their documented mathematical meaning; availability of the
  optional libraries is an explicit boolean parameter, mirroring the
  `ASTROPY_AVAILABLE` / `has_scipy` flags in the source.
-/

namespace Analemma

/-- Python exception classes that appear in the modelled code paths. -/
inductive PyError where
  | valueError
  | typeError
  | runtimeError
  | zeroDivisionError
  deriving DecidableEq, Repr

/-- `np.radians`: degrees to radians. -/
noncomputable def radians (x : ℝ) : ℝ := x * (Real.pi / 180)

/-- `np.degrees`: radians to degrees. -/
noncomputable def degrees (x : ℝ) : ℝ := x * (180 / Real.pi)

/-- Python float `%`: `a % n = a - n * floor (a / n)` (result has the sign of
the divisor). -/
noncomputable def pymod (a n : ℝ) : ℝ := a - n * ⌊a / n⌋

/-- `np.arctan2 y x`, with the usual quadrant conventions and
`arctan2 0 0 = 0`. -/
noncomputable def arctan2 (y x : ℝ) : ℝ :=
  if 0 < x then Real.arctan (y / x)
  else if x < 0 then
    (if 0 ≤ y then Real.arctan (y / x) + Real.pi else Real.arctan (y / x) - Real.pi)
  else if 0 < y then Real.pi / 2
  else if y < 0 then -(Real.pi / 2)
  else 0

/-! ## Layer 1: `calculator.py`, class `AnalemmaCalculator` -/

/-- Earth's axial tilt constant `OBLIQUITY = 23.45` from `calculator.py`. -/
noncomputable def OBLIQUITY : ℝ := 23.45

/-- State of an `AnalemmaCalculator` instance: the stored `mode` string and
`year` (`__init__`, `calculator.py:50-51`). -/
structure AnalemmaCalculator where
  mode : String
  year : ℤ

/-- `AnalemmaCalculator.__init__` (`calculator.py:47-55`): stores mode and
year, and raises `RuntimeError` when high-precision mode is requested while
astropy is unavailable. -/
def AnalemmaCalculator.init (astropyAvailable : Bool) (mode : String) (year : ℤ) :
    Except PyError AnalemmaCalculator :=
  if mode = "high-precision" ∧ astropyAvailable = false then .error .runtimeError
  else .ok ⟨mode, year⟩

/-- `calculate_declination_approximate` (`calculator.py:57-82`):
`δ = 23.45 * sin (radians ((360/365) * (284 + day)))`. -/
noncomputable def calculate_declination_approximate (day_of_year : ℤ) : ℝ :=
  OBLIQUITY * Real.sin (radians ((360 / 365) * (284 + (day_of_year : ℝ))))

/-- `calculate_equation_of_time_approximate` (`calculator.py:84-114`):
`B = 2π(day-81)/365`, result `9.87 sin 2B - (7.53 cos B - 1.5 sin B)`. -/
noncomputable def calculate_equation_of_time_approximate (day_of_year : ℤ) : ℝ :=
  let B := 2 * Real.pi * ((day_of_year : ℝ) - 81) / 365
  9.87 * Real.sin (2 * B) - (7.53 * Real.cos B - 1.5 * Real.sin B)

/-- `calculate_high_precision` (`calculator.py:116-163`).  The astropy sun
position for the requested datetime is an input (`sunDecDeg`, `raHours`); the
datetime's `tm_yday` is `day_of_year`.  The RA-based equation-of-time value is
computed (lines 145-154) but then overwritten by the approximate formula
(line 161), exactly as in the source. -/
noncomputable def calculate_high_precision (astropyAvailable : Bool)
    (sunDecDeg raHours : ℝ) (day_of_year : ℤ) : Except PyError (ℝ × ℝ) :=
  if astropyAvailable = false then .error .runtimeError
  else
    let declination := sunDecDeg
    let mean_solar_hours := ((day_of_year : ℝ) - 1) * 24 / 365.25
    let eot_hours := pymod (raHours - mean_solar_hours) 24
    let eot_hours2 := if 12 < eot_hours then eot_hours - 24 else eot_hours
    let _eot_minutes_from_ra := eot_hours2 * 4
    let eot_minutes := calculate_equation_of_time_approximate day_of_year
    .ok (declination, eot_minutes)

/-- The dictionary returned by `AnalemmaCalculator.calculate`. -/
structure CalcResult where
  declination : ℝ
  eot : ℝ
  day_of_year : ℤ

/-- `AnalemmaCalculator.calculate` (`calculator.py:165-197`): dispatch on the
mode string; unknown modes raise `ValueError`. -/
noncomputable def AnalemmaCalculator.calculate (astropyAvailable : Bool)
    (c : AnalemmaCalculator) (sunDecDeg raHours : ℝ) (day_of_year : ℤ) :
    Except PyError CalcResult :=
  if c.mode = "approximate" then
    .ok ⟨calculate_declination_approximate day_of_year,
         calculate_equation_of_time_approximate day_of_year, day_of_year⟩
  else if c.mode = "high-precision" then
    (calculate_high_precision astropyAvailable sunDecDeg raHours day_of_year).map
      (fun p => ⟨p.1, p.2, day_of_year⟩)
  else .error .valueError

/-- The dictionary returned by `compare_modes`. -/
structure CompareResult where
  approximate : CalcResult
  highPrecision : CalcResult
  declination_diff : ℝ
  eot_diff : ℝ

/-- `compare_modes` (`calculator.py:244-287`): raises `RuntimeError` without
astropy; otherwise saves the mode, runs `calculate` with the mode field set to
`approximate` and then to `high-precision`, restores the saved mode, and
returns both results with their differences.  The mutated-then-restored mode
field is made explicit by returning the final calculator state. -/
noncomputable def AnalemmaCalculator.compare_modes (astropyAvailable : Bool)
    (c : AnalemmaCalculator) (sunDecDeg raHours : ℝ) (day_of_year : ℤ) :
    Except PyError (AnalemmaCalculator × CompareResult) :=
  if astropyAvailable = false then .error .runtimeError
  else
    let original_mode := c.mode
    let c1 : AnalemmaCalculator := { c with mode := "approximate" }
    (c1.calculate astropyAvailable sunDecDeg raHours day_of_year).bind fun approx =>
      let c2 : AnalemmaCalculator := { c1 with mode := "high-precision" }
      (c2.calculate astropyAvailable sunDecDeg raHours day_of_year).bind fun precise =>
        let c3 : AnalemmaCalculator := { c2 with mode := original_mode }
        .ok (c3, ⟨approx, precise,
                  |precise.declination - approx.declination|,
                  |precise.eot - approx.eot|⟩)

/-! ## Layer 2: `sky_mapper.py`, class `SkyMapper` -/

/-- State of a `SkyMapper` instance (`__init__`, `sky_mapper.py:31-45`);
`timezone_offset` is taken as given (the `None` default is resolved in
`__init__` before being stored). -/
structure SkyMapper where
  latitude : ℝ
  longitude : ℝ
  timezone_offset : ℝ

/-- `self.latitude_rad = np.radians(latitude)` (`sky_mapper.py:45`). -/
noncomputable def SkyMapper.latitude_rad (m : SkyMapper) : ℝ := radians m.latitude

/-- `equation_of_time_to_hour_angle` (`sky_mapper.py:47-92`), with the
instance longitude. -/
noncomputable def SkyMapper.equation_of_time_to_hour_angle (m : SkyMapper)
    (eot_minutes : ℝ) (hour minute : ℤ) : ℝ :=
  let time_from_noon := ((hour : ℝ) - 12) + (minute : ℝ) / 60
  let hour_angle_from_time := time_from_noon * 15
  let eot_degrees := eot_minutes / 4
  let timezone_meridian := m.timezone_offset * 15
  let longitude_correction := m.longitude - timezone_meridian
  hour_angle_from_time + eot_degrees + longitude_correction

/-- `calculate_altitude` (`sky_mapper.py:94-129`): spherical law of cosines,
`altitude = degrees (arcsin (sin φ sin δ + cos φ cos δ cos H))`. -/
noncomputable def SkyMapper.calculate_altitude (m : SkyMapper)
    (declination hour_angle : ℝ) : ℝ :=
  let dec_rad := radians declination
  let ha_rad := radians hour_angle
  degrees (Real.arcsin (Real.sin m.latitude_rad * Real.sin dec_rad +
    Real.cos m.latitude_rad * Real.cos dec_rad * Real.cos ha_rad))

/-- `calculate_azimuth` (`sky_mapper.py:131-172`): the raw `atan2` formula,
divided by `cos (radians altitude)` with no special case, then
`(· + 180) % 360`. -/
noncomputable def SkyMapper.calculate_azimuth (m : SkyMapper)
    (declination hour_angle altitude : ℝ) : ℝ :=
  let dec_rad := radians declination
  let ha_rad := radians hour_angle
  let alt_rad := radians altitude
  let sin_azimuth := Real.cos dec_rad * Real.sin ha_rad / Real.cos alt_rad
  let cos_azimuth := (Real.cos dec_rad * Real.cos ha_rad * Real.sin m.latitude_rad -
    Real.sin dec_rad * Real.cos m.latitude_rad) / Real.cos alt_rad
  pymod (degrees (arctan2 sin_azimuth cos_azimuth) + 180) 360

/-- `calculate_max_altitude` (`sky_mapper.py:174-191`). -/
noncomputable def SkyMapper.calculate_max_altitude (m : SkyMapper)
    (declination : ℝ) : ℝ :=
  90 - |m.latitude - declination|

/-- `get_sunrise_sunset_approx` (`sky_mapper.py:286-318`): returns the
`(None, None)` sentinel (modelled as `none`) when `|cos H| > 1`, otherwise
`(-H, +H)` in degrees. -/
noncomputable def SkyMapper.get_sunrise_sunset_approx (m : SkyMapper)
    (declination : ℝ) : Option (ℝ × ℝ) :=
  let dec_rad := radians declination
  let cos_h := -(Real.tan m.latitude_rad * Real.tan dec_rad)
  if 1 < |cos_h| then none
  else
    let h_deg := degrees (Real.arccos cos_h)
    some (-h_deg, h_deg)

/-! ## Layer 3: `image_anchor.py`, class `ImageAnchorer` -/

/-- Python `int()` applied to a real value: truncation toward zero. -/
noncomputable def pyint (x : ℝ) : ℤ := if 0 ≤ x then ⌊x⌋ else ⌈x⌉

/-- State of an `ImageAnchorer` instance: image size, the anchor's sun pixel,
the anchor's horizon position (`anchor_data['altitude'|'azimuth']`), and the
calibration fields, which are `None` until a calibration method runs
(`image_anchor.py:90-91`). -/
structure ImageAnchorer where
  image_width : ℕ
  image_height : ℕ
  sun_pixel : ℤ × ℤ
  anchor_altitude : ℝ
  anchor_azimuth : ℝ
  pixels_per_degree_az : Option ℝ
  pixels_per_degree_alt : Option ℝ

/-- `ImageAnchorer.__init__` (`image_anchor.py:47-91`), after the image load,
sun detection and anchor-position computation have produced the image size,
sun pixel and anchor altitude/azimuth: both calibration fields are set to
`None`. -/
def ImageAnchorer.init (w h : ℕ) (sp : ℤ × ℤ) (anchor_alt anchor_az : ℝ) :
    ImageAnchorer :=
  ⟨w, h, sp, anchor_alt, anchor_az, none, none⟩

/-- `calibrate_from_field_of_view` (`image_anchor.py:162-176`):
`pixels_per_degree = image_size / fov` on each axis. -/
noncomputable def ImageAnchorer.calibrate_from_field_of_view (a : ImageAnchorer)
    (horizontal_fov vertical_fov : ℝ) : ImageAnchorer :=
  { a with
    pixels_per_degree_az := some ((a.image_width : ℝ) / horizontal_fov)
    pixels_per_degree_alt := some ((a.image_height : ℝ) / vertical_fov) }

/-- `calibrate_from_focal_length` (`image_anchor.py:178-198`): derives the FOV
from focal length and sensor size, then calls `calibrate_from_field_of_view`. -/
noncomputable def ImageAnchorer.calibrate_from_focal_length (a : ImageAnchorer)
    (focal_length_mm sensor_width_mm sensor_height_mm : ℝ) : ImageAnchorer :=
  let h_fov := 2 * degrees (Real.arctan (sensor_width_mm / (2 * focal_length_mm)))
  let v_fov := 2 * degrees (Real.arctan (sensor_height_mm / (2 * focal_length_mm)))
  a.calibrate_from_field_of_view h_fov v_fov

/-- `sky_to_pixel` (`image_anchor.py:200-236`): raises `ValueError` when
`pixels_per_degree_az is None` (no calibration was performed); otherwise adds
the scaled angular offset from the anchor to the anchor's sun pixel, with the
vertical axis inverted, truncating with `int()`.  (If only the azimuth scale
were set, the `None` altitude scale would make the multiplication on line 230
raise `TypeError`; both fields are only ever set together.) -/
noncomputable def ImageAnchorer.sky_to_pixel (a : ImageAnchorer)
    (altitude azimuth : ℝ) : Except PyError (ℤ × ℤ) :=
  match a.pixels_per_degree_az with
  | none => .error .valueError
  | some paz =>
    match a.pixels_per_degree_alt with
    | none => .error .typeError
    | some palt =>
      let delta_az := azimuth - a.anchor_azimuth
      let delta_alt := altitude - a.anchor_altitude
      let delta_x := delta_az * paz
      let delta_y := -delta_alt * palt
      .ok (pyint ((a.sun_pixel.1 : ℝ) + delta_x), pyint ((a.sun_pixel.2 : ℝ) + delta_y))

/-! ## `image_anchor.py`, method `_detect_sun_position` (`image_anchor.py:93-154`)

The image pixel buffer (a numpy array) is modelled as a rectangular list of
rows of natural-number brightness values; an RGB image is a rectangular grid
of channel triples.  The float threshold `max_val * 0.999` is modelled by the
exact rational comparison `999 * max ≤ 1000 * v`, which coincides with the
float comparison on integer pixel data.  `scipy.ndimage` availability is the
boolean `hasScipy`; `ndimage.label` (default 4-connectivity structure),
`ndimage.center_of_mass` and `np.average` are modelled by their documented
mathematical meaning, with `np.average` on all-zero weights raising
`ZeroDivisionError` and `int(nan)` (centre of mass of an all-zero blob)
raising `ValueError`, as in numpy/Python. -/

/-- A grayscale pixel grid: a list of rows. -/
abbrev Gray := List (List ℕ)

/-- The image inputs accepted by `_detect_sun_position`: a 2-D grayscale or a
3-D RGB numpy array. -/
inductive NpImage where
  | gray2d (g : Gray)
  | rgb3d (g : List (List (ℕ × ℕ × ℕ)))

/-- `gray = np.max(img_array, axis=2)` for 3-D input, identity for 2-D
(`image_anchor.py:105-109`). -/
def toGray : NpImage → Gray
  | .gray2d g => g
  | .rgb3d g => g.map (fun row => row.map (fun p => max p.1 (max p.2.1 p.2.2)))

/-- Number of columns of the grid (length of the first row). -/
def gridWidth (g : Gray) : ℕ := (g.headD []).length

/-- A well-formed image: at least one row, positive width, all rows the same
length (every numpy array of an actual photograph satisfies this). -/
def wellFormedGray (g : Gray) : Bool :=
  !g.isEmpty && decide (0 < gridWidth g) && g.all (fun row => row.length == gridWidth g)

/-- Well-formedness of an image input. -/
def wellFormed (img : NpImage) : Bool := wellFormedGray (toGray img)

/-- `gray.max()`: maximum brightness over the whole grid. -/
def maxVal (g : Gray) : ℕ := (g.map (fun row => row.foldr max 0)).foldr max 0

/-- Pixel value at coordinate `(row, column)`. -/
def px (g : Gray) (c : ℕ × ℕ) : ℕ := (g.getD c.1 []).getD c.2 0

/-- All coordinates of the grid, in raster (C) order. -/
def allCoords (g : Gray) : List (ℕ × ℕ) :=
  (List.range g.length).flatMap fun y =>
    (List.range (g.getD y []).length).map fun x => (y, x)

/-- The mask condition `gray >= max_val * 0.999` (`image_anchor.py:115-116`),
as an exact rational comparison. -/
def isBright (m v : ℕ) : Bool := 999 * m ≤ 1000 * v

/-- Coordinates of the thresholded mask `bright_mask`, in raster order. -/
def brightCoords (g : Gray) : List (ℕ × ℕ) :=
  (allCoords g).filter fun c => isBright (maxVal g) (px g c)

/-- 4-connectivity (the default structuring element of `ndimage.label`). -/
def adjacent (c d : ℕ × ℕ) : Bool :=
  (c.1 == d.1 && (c.2 + 1 == d.2 || d.2 + 1 == c.2)) ||
  (c.2 == d.2 && (c.1 + 1 == d.1 || d.1 + 1 == c.1))

/-- One step of region growing: add the mask pixels adjacent to the set. -/
def growStep (mask s : List (ℕ × ℕ)) : List (ℕ × ℕ) :=
  s ++ mask.filter fun c => !decide (c ∈ s) && s.any fun d => adjacent c d

/-- Iterated region growing. -/
def reach (mask : List (ℕ × ℕ)) : ℕ → List (ℕ × ℕ) → List (ℕ × ℕ)
  | 0, s => s
  | n + 1, s => reach mask n (growStep mask s)

/-- The connected component of `p` within `mask` (`mask.length` growth steps
always suffice to saturate). -/
def component (mask : List (ℕ × ℕ)) (p : ℕ × ℕ) : List (ℕ × ℕ) :=
  reach mask mask.length [p]

/-- Connected components of the mask pixels in `l`, in raster order of their
first pixel, as `ndimage.label` numbers them. -/
def componentsAux (mask : List (ℕ × ℕ)) : List (ℕ × ℕ) → List (List (ℕ × ℕ))
  | [] => []
  | p :: rest =>
    let c := component mask p
    c :: componentsAux mask (rest.filter fun q => !decide (q ∈ c))
  termination_by l => l.length
  decreasing_by
    simp only [List.length_cons]
    exact Nat.lt_succ_of_le (List.length_filter_le _ _)

/-- `labeled, num_features = ndimage.label(bright_mask)`, as the list of
components (`image_anchor.py:121`). -/
def components (g : Gray) : List (List (ℕ × ℕ)) :=
  componentsAux (brightCoords g) (brightCoords g)

/-- `sizes[1:].argmax() + 1`: the first component of maximal pixel count
(`image_anchor.py:125-126`). -/
def largestComp : List (List (ℕ × ℕ)) → List (ℕ × ℕ)
  | [] => []
  | c :: cs => cs.foldl (fun b d => if b.length < d.length then d else b) c

/-- `np.unravel_index(gray.argmax(), gray.shape)`: the first coordinate in
raster order attaining the maximum brightness. -/
def argmaxCoord (g : Gray) : ℕ × ℕ :=
  ((allCoords g).find? fun c => px g c == maxVal g).getD (0, 0)

/-- Python `int()` on an exact rational: truncation toward zero. -/
def pyintQ (q : ℚ) : ℤ := if 0 ≤ q then ⌊q⌋ else ⌈q⌉

/-- Brightness-weighted average of `f` over the pixel list `l`
(`np.average(f, weights=gray)` / one axis of `ndimage.center_of_mass`). -/
def centroid (g : Gray) (l : List (ℕ × ℕ)) (f : ℕ × ℕ → ℕ) : ℚ :=
  (l.map fun c => (px g c : ℚ) * (f c : ℚ)).sum / (l.map fun c => (px g c : ℚ)).sum

/-- `_detect_sun_position` (`image_anchor.py:93-154`), returning the
`(sun_x, sun_y)` pixel pair or the Python exception the computation raises.
With scipy: centre of mass of the largest bright component (`int(nan)` on an
all-zero blob raises `ValueError`), falling back to the brightest pixel when
there is no component.  Without scipy: brightness-weighted centroid of the
mask when more than 10 pixels pass the threshold (`np.average` on all-zero
weights raises `ZeroDivisionError`), otherwise the brightest pixel. -/
def detect_sun_position (hasScipy : Bool) (img : NpImage) : Except PyError (ℤ × ℤ) :=
  let gray := toGray img
  let mask := brightCoords gray
  if hasScipy then
    let comps := components gray
    if 0 < comps.length then
      let blob := largestComp comps
      if (blob.map (px gray)).sum = 0 then .error .valueError
      else .ok (pyintQ (centroid gray blob fun c => c.2),
                pyintQ (centroid gray blob fun c => c.1))
    else
      let m := argmaxCoord gray
      .ok ((m.2 : ℤ), (m.1 : ℤ))
  else
    if 10 < mask.length then
      if (mask.map (px gray)).sum = 0 then .error .zeroDivisionError
      else .ok (pyintQ (centroid gray mask fun c => c.2),
                pyintQ (centroid gray mask fun c => c.1))
    else
      let m := argmaxCoord gray
      .ok ((m.2 : ℤ), (m.1 : ℤ))

/-! ## General-purpose lemmas -/

/-- `pyint` is the identity on integers. -/
theorem pyint_intCast (n : ℤ) : pyint (n : ℝ) = n := by
  unfold pyint
  split
  · exact Int.floor_intCast n
  · exact Int.ceil_intCast n

/-- Python `% 360` lands in `[0, 360)`. -/
theorem pymod_360_bounds (a : ℝ) : 0 ≤ pymod a 360 ∧ pymod a 360 < 360 := by
  have h : pymod a 360 = 360 * Int.fract (a / 360) := by
    unfold pymod Int.fract
    ring
  constructor
  · rw [h]
    exact mul_nonneg (by norm_num) (Int.fract_nonneg _)
  · rw [h]
    calc 360 * Int.fract (a / 360) < 360 * 1 :=
          mul_lt_mul_of_pos_left (Int.fract_lt_one _) (by norm_num)
    _ = 360 := mul_one 360

/-- `degrees (arcsin x)` lands in `[-90, 90]`. -/
theorem degrees_arcsin_bounds (x : ℝ) :
    -90 ≤ degrees (Real.arcsin x) ∧ degrees (Real.arcsin x) ≤ 90 := by
  have hpos : (0 : ℝ) < 180 / Real.pi := by positivity
  have hc : Real.pi / 2 * (180 / Real.pi) = 90 := by
    field_simp
    ring
  unfold degrees
  constructor
  · have h2 := mul_le_mul_of_nonneg_right (Real.neg_pi_div_two_le_arcsin x) hpos.le
    have hc2 : -(Real.pi / 2) * (180 / Real.pi) = -90 := by rw [neg_mul, hc]
    linarith
  · have h1 := mul_le_mul_of_nonneg_right (Real.arcsin_le_pi_div_two x) hpos.le
    rw [hc] at h1
    exact h1

/-! ## Claim theorems: calculator -/

/-- C4: with the ephemeris provider (astropy) unavailable, constructing the
calculator in high-precision mode fails at construction time with the
configuration error (`RuntimeError` in the source), while constructing in
approximate mode succeeds — and the approximate-mode `calculate` then works
without the provider. -/
theorem init_fails_at_construction_without_astropy (y : ℤ) (sunDec ra : ℝ) (n : ℤ) :
    AnalemmaCalculator.init false "high-precision" y = .error .runtimeError ∧
    AnalemmaCalculator.init false "approximate" y = .ok ⟨"approximate", y⟩ ∧
    (AnalemmaCalculator.calculate false ⟨"approximate", y⟩ sunDec ra n).isOk = true := by
  refine ⟨?_, ?_, ?_⟩
  · simp [AnalemmaCalculator.init]
  · simp [AnalemmaCalculator.init]
  · simp [AnalemmaCalculator.calculate, Except.isOk, Except.toBool]

/-- C5: the equation-of-time component of the high-precision calculation is
the approximate equation-of-time formula at the datetime's day of year (the
RA-based value is overwritten at `calculator.py:161`), so both precision modes
use the same approximate formula. -/
theorem high_precision_eot_is_approximate (sunDec ra : ℝ) (n y : ℤ) :
    (calculate_high_precision true sunDec ra n).map Prod.snd =
      Except.ok (calculate_equation_of_time_approximate n) ∧
    (AnalemmaCalculator.calculate true ⟨"approximate", y⟩ sunDec ra n).map CalcResult.eot =
      Except.ok (calculate_equation_of_time_approximate n) := by
  constructor
  · simp [calculate_high_precision, Except.map]
  · simp [AnalemmaCalculator.calculate, Except.map]

/-- C7: in the approximate model the declination curve is antisymmetric about
the equinox day 81: `declination (81 + k) = -declination (81 - k)` for every
integer offset `k`, and `declination 81 = 0` exactly. -/
theorem declination_symmetric_about_equinox (k : ℤ) :
    calculate_declination_approximate (81 + k) =
      -(calculate_declination_approximate (81 - k)) ∧
    calculate_declination_approximate 81 = 0 := by
  constructor
  · unfold calculate_declination_approximate radians
    have h1 : (360 / 365 : ℝ) * (284 + ((81 + k : ℤ) : ℝ)) * (Real.pi / 180) =
        2 * Real.pi * (k : ℝ) / 365 + 2 * Real.pi := by
      push_cast
      ring
    have h2 : (360 / 365 : ℝ) * (284 + ((81 - k : ℤ) : ℝ)) * (Real.pi / 180) =
        -(2 * Real.pi * (k : ℝ) / 365) + 2 * Real.pi := by
      push_cast
      ring
    rw [h1, h2, Real.sin_add_two_pi, Real.sin_add_two_pi, Real.sin_neg]
    ring
  · unfold calculate_declination_approximate radians
    have h3 : (360 / 365 : ℝ) * (284 + ((81 : ℤ) : ℝ)) * (Real.pi / 180) =
        2 * Real.pi := by
      push_cast
      ring
    rw [h3, Real.sin_two_pi, mul_zero]

/-- C10: `compare_modes` switches the mode field to evaluate both precision
paths but restores it before returning, so whenever it returns normally the
resulting calculator's mode equals the original mode (and on the error path
there is no resulting calculator at all). -/
theorem compare_modes_preserves_mode (astropyAvailable : Bool)
    (c : AnalemmaCalculator) (sunDec ra : ℝ) (n : ℤ) :
    (c.compare_modes astropyAvailable sunDec ra n).map (fun p => p.1.mode) =
    (c.compare_modes astropyAvailable sunDec ra n).map (fun _ => c.mode) := by
  cases astropyAvailable
  · simp [AnalemmaCalculator.compare_modes, Except.map]
  · simp [AnalemmaCalculator.compare_modes, AnalemmaCalculator.calculate,
      calculate_high_precision, Except.map, Except.bind]

/-! ## Claim theorems: sky mapper -/

/-- C2: whenever the computed altitude is away from the zenith singularity,
the horizon projection yields `altitude ∈ [-90, 90]` and
`azimuth ∈ [0, 360)`. -/
theorem horizon_projection_bounds (m : SkyMapper) (declination hour_angle : ℝ)
    (h : Real.cos (radians (m.calculate_altitude declination hour_angle)) ≠ 0) :
    (-90 ≤ m.calculate_altitude declination hour_angle ∧
      m.calculate_altitude declination hour_angle ≤ 90) ∧
    (0 ≤ m.calculate_azimuth declination hour_angle
        (m.calculate_altitude declination hour_angle) ∧
      m.calculate_azimuth declination hour_angle
        (m.calculate_altitude declination hour_angle) < 360) := by
  constructor
  · exact degrees_arcsin_bounds _
  · exact pymod_360_bounds _

/-- Witness for C2 at the equator with the sun on the horizon
(`latitude = 0`, `declination = 0`, `hour angle = 90`): the altitude is `0`,
whose cosine is nonzero, and the bounds hold there. -/
theorem horizon_projection_bounds_witness :
    Real.cos (radians (SkyMapper.calculate_altitude ⟨0, 0, 0⟩ 0 90)) ≠ 0 ∧
    ((-90 ≤ SkyMapper.calculate_altitude ⟨0, 0, 0⟩ 0 90 ∧
      SkyMapper.calculate_altitude ⟨0, 0, 0⟩ 0 90 ≤ 90) ∧
    (0 ≤ SkyMapper.calculate_azimuth ⟨0, 0, 0⟩ 0 90
        (SkyMapper.calculate_altitude ⟨0, 0, 0⟩ 0 90) ∧
      SkyMapper.calculate_azimuth ⟨0, 0, 0⟩ 0 90
        (SkyMapper.calculate_altitude ⟨0, 0, 0⟩ 0 90) < 360)) := by
  have e1 : (90 : ℝ) * (Real.pi / 180) = Real.pi / 2 := by ring
  have hne : Real.cos (radians (SkyMapper.calculate_altitude ⟨0, 0, 0⟩ 0 90)) ≠ 0 := by
    simp [SkyMapper.calculate_altitude, SkyMapper.latitude_rad, radians, degrees, e1]
  exact ⟨hne, horizon_projection_bounds ⟨0, 0, 0⟩ 0 90 hne⟩

/-- C1 evidence: with the observer at the equator and the sun at the zenith
(`declination = 0`, `hour angle = 0`), the computed altitude is exactly `90`
and `cos (radians 90) = 0`, yet `calculate_azimuth` takes no special case: it
evaluates the raw quotient formula (division by `cos(altitude)`) and produces
the number `180`, never a sentinel — its return type carries no sentinel
value at all. -/
theorem azimuth_zenith_unguarded :
    SkyMapper.calculate_altitude ⟨0, 0, 0⟩ 0 0 = 90 ∧
    Real.cos (radians (SkyMapper.calculate_altitude ⟨0, 0, 0⟩ 0 0)) = 0 ∧
    SkyMapper.calculate_azimuth ⟨0, 0, 0⟩ 0 0 90 = 180 := by
  have e1 : (90 : ℝ) * (Real.pi / 180) = Real.pi / 2 := by ring
  have halt : SkyMapper.calculate_altitude ⟨0, 0, 0⟩ 0 0 = 90 := by
    simp [SkyMapper.calculate_altitude, SkyMapper.latitude_rad, radians, degrees,
      Real.arcsin_one]
    field_simp
    ring
  refine ⟨halt, ?_, ?_⟩
  · rw [halt]
    simp [radians, e1]
  · simp [SkyMapper.calculate_azimuth, SkyMapper.latitude_rad, radians, degrees, e1,
      arctan2, pymod]
    norm_num [Int.floor_eq_zero_iff]

/-- C6: sunrise/sunset returns the `(None, None)` sentinel exactly when
`|-tan lat * tan dec| > 1` (polar day or night), and otherwise returns
`(-H, +H)` with `H = degrees (arccos (-tan lat * tan dec))`. -/
theorem sunrise_sunset_sentinel (m : SkyMapper) (declination : ℝ) :
    (m.get_sunrise_sunset_approx declination = none ↔
      1 < |(-(Real.tan m.latitude_rad * Real.tan (radians declination)))|) ∧
    (|(-(Real.tan m.latitude_rad * Real.tan (radians declination)))| ≤ 1 →
      m.get_sunrise_sunset_approx declination =
        some (-(degrees (Real.arccos
            (-(Real.tan m.latitude_rad * Real.tan (radians declination))))),
          degrees (Real.arccos
            (-(Real.tan m.latitude_rad * Real.tan (radians declination)))))) := by
  unfold SkyMapper.get_sunrise_sunset_approx
  by_cases hgt : 1 < |(-(Real.tan m.latitude_rad * Real.tan (radians declination)))|
  · rw [if_pos hgt]
    exact ⟨⟨fun _ => hgt, fun _ => rfl⟩, fun hle => absurd hgt (not_lt.mpr hle)⟩
  · rw [if_neg hgt]
    exact ⟨⟨fun hcontra => absurd hcontra (Option.some_ne_none _),
      fun hh => absurd hh hgt⟩, fun _ => rfl⟩

/-- Witness for C6 at `latitude = 0`, `declination = 0`: the polar condition
fails and the result is `(-90, 90)` degrees. -/
theorem sunrise_sunset_sentinel_witness :
    SkyMapper.get_sunrise_sunset_approx ⟨0, 0, 0⟩ 0 = some (-90, 90) := by
  have h0 : (-(Real.tan (SkyMapper.latitude_rad ⟨0, 0, 0⟩) * Real.tan (radians 0))) =
      (0 : ℝ) := by
    simp [SkyMapper.latitude_rad, radians]
  have hle : |(-(Real.tan (SkyMapper.latitude_rad ⟨0, 0, 0⟩) * Real.tan (radians 0)))| ≤
      (1 : ℝ) := by
    rw [h0]
    simp
  have hres := (sunrise_sunset_sentinel ⟨0, 0, 0⟩ 0).2 hle
  rw [hres, h0, Real.arccos_zero]
  have hdeg : degrees (Real.pi / 2) = 90 := by
    unfold degrees
    field_simp
    ring
  rw [hdeg]

/-! ## Claim theorems: image anchorer -/

/-- C3: before any calibration the conversion fails with the configuration
error (`ValueError` in the source) — it never produces a pixel from a default
scale — while after `calibrate_from_field_of_view` the same request
succeeds. -/
theorem sky_to_pixel_requires_calibration (w h : ℕ) (sp : ℤ × ℤ)
    (anchor_alt anchor_az altitude azimuth hfov vfov : ℝ) :
    (ImageAnchorer.init w h sp anchor_alt anchor_az).sky_to_pixel altitude azimuth =
      .error .valueError ∧
    ∃ p, ((ImageAnchorer.init w h sp anchor_alt anchor_az).calibrate_from_field_of_view
        hfov vfov).sky_to_pixel altitude azimuth = .ok p := by
  exact ⟨rfl, ⟨_, rfl⟩⟩

/-- C8: for any calibrated anchorer, converting the anchor's own horizon
position (`Δaz = Δalt = 0`) through `sky_to_pixel` returns exactly the
anchor's sun pixel. -/
theorem anchor_roundtrip (a : ImageAnchorer) (paz palt : ℝ)
    (haz : a.pixels_per_degree_az = some paz)
    (hal : a.pixels_per_degree_alt = some palt) :
    a.sky_to_pixel a.anchor_altitude a.anchor_azimuth = .ok a.sun_pixel := by
  unfold ImageAnchorer.sky_to_pixel
  rw [haz, hal]
  simp [pyint_intCast]

/-- Witness for C8: a concrete calibrated anchorer reproduces its sun pixel
`(7, 9)`. -/
theorem anchor_roundtrip_witness :
    ((ImageAnchorer.init 100 50 (7, 9) 1 2).calibrate_from_field_of_view 10 5).sky_to_pixel
      1 2 = .ok (7, 9) := by
  exact anchor_roundtrip _ (((100 : ℕ) : ℝ) / 10) (((50 : ℕ) : ℝ) / 5) rfl rfl

/-! ## Sun-detector lemmas -/

/-- Unpacking of `wellFormedGray`. -/
theorem wf_facts {g : Gray} (hwf : wellFormedGray g = true) :
    g ≠ [] ∧ 0 < gridWidth g ∧ ∀ row ∈ g, row.length = gridWidth g := by
  have h := hwf
  simp only [wellFormedGray, Bool.and_eq_true, Bool.not_eq_true', List.all_eq_true,
    decide_eq_true_eq, beq_iff_eq] at h
  refine ⟨?_, h.1.2, h.2⟩
  intro hnil
  rw [hnil] at h
  simp at h

/-- Membership in `allCoords`. -/
theorem mem_allCoords {g : Gray} {c : ℕ × ℕ} :
    c ∈ allCoords g ↔ c.1 < g.length ∧ c.2 < (g.getD c.1 []).length := by
  obtain ⟨y, x⟩ := c
  simp only [allCoords, List.mem_flatMap, List.mem_map, List.mem_range, Prod.mk.injEq]
  constructor
  · rintro ⟨y', hy', x', hx', rfl, rfl⟩
    exact ⟨hy', hx'⟩
  · rintro ⟨hy, hx⟩
    exact ⟨y, hy, x, hx, rfl, rfl⟩

/-- Coordinates of a well-formed grid lie inside `length × width`. -/
theorem mem_allCoords_bounds {g : Gray} (hwf : wellFormedGray g = true) :
    ∀ c ∈ allCoords g, c.1 < g.length ∧ c.2 < gridWidth g := by
  intro c hc
  obtain ⟨hy, hx⟩ := mem_allCoords.mp hc
  refine ⟨hy, ?_⟩
  obtain ⟨-, -, hrows⟩ := wf_facts hwf
  have hrow : g.getD c.1 [] ∈ g := by
    rw [List.getD_eq_getElem g [] hy]
    exact List.getElem_mem ..
  rw [hrows _ hrow] at hx
  exact hx

/-- A fold of `max` over a nonempty list of naturals is attained. -/
theorem foldr_max_mem : ∀ (l : List ℕ), l ≠ [] → l.foldr max 0 ∈ l := by
  intro l
  induction l with
  | nil => intro h; cases h rfl
  | cons a l ih =>
    intro _
    cases l with
    | nil => simp
    | cons b m =>
      have hm := ih (by simp)
      rw [List.foldr_cons]
      rcases max_choice a ((b :: m).foldr max 0) with h | h
      · rw [h]; exact List.mem_cons_self ..
      · rw [h]; exact List.mem_cons_of_mem _ hm

/-- On a well-formed grid the maximum brightness is attained at some
coordinate. -/
theorem exists_max_coord {g : Gray} (hwf : wellFormedGray g = true) :
    ∃ c ∈ allCoords g, px g c = maxVal g := by
  obtain ⟨hne, hw, hrows⟩ := wf_facts hwf
  have h1 : maxVal g ∈ g.map (fun row => row.foldr max 0) :=
    foldr_max_mem _ (by simp [hne])
  obtain ⟨row, hrow, hval⟩ := List.mem_map.mp h1
  have hrowne : row ≠ [] := by
    intro hnil
    have := hrows row hrow
    rw [hnil] at this
    simp at this
    omega
  have h2 := foldr_max_mem row hrowne
  obtain ⟨y, hy, hgy⟩ := List.getElem_of_mem hrow
  obtain ⟨x, hx, hrx⟩ := List.getElem_of_mem h2
  have hgd : g.getD y [] = row := by rw [List.getD_eq_getElem g [] hy, hgy]
  have hrd : row.getD x 0 = row.foldr max 0 := by
    rw [List.getD_eq_getElem row 0 hx, hrx]
  refine ⟨(y, x), ?_, ?_⟩
  · rw [mem_allCoords]
    refine ⟨hy, ?_⟩
    show x < (g.getD y []).length
    rw [hgd]
    exact hx
  · show (g.getD y []).getD x 0 = maxVal g
    rw [hgd, hrd, hval]

/-- Membership in the bright mask. -/
theorem mem_brightCoords {g : Gray} {c : ℕ × ℕ} :
    c ∈ brightCoords g ↔ c ∈ allCoords g ∧ isBright (maxVal g) (px g c) = true :=
  List.mem_filter

/-- The bright mask of a well-formed grid is nonempty (the maximum pixel
always passes the threshold). -/
theorem brightCoords_ne_nil {g : Gray} (hwf : wellFormedGray g = true) :
    brightCoords g ≠ [] := by
  obtain ⟨c, hc, hpx⟩ := exists_max_coord hwf
  apply List.ne_nil_of_mem (a := c)
  rw [mem_brightCoords]
  refine ⟨hc, ?_⟩
  simp [isBright, hpx]
  omega

/-- Bright pixels are strictly positive when the maximum is. -/
theorem px_pos_of_bright {g : Gray} {c : ℕ × ℕ} (hmax : 0 < maxVal g)
    (hb : isBright (maxVal g) (px g c) = true) : 0 < px g c := by
  simp only [isBright, decide_eq_true_eq] at hb
  omega

/-- Region growing only adds pixels. -/
theorem subset_growStep (mask s : List (ℕ × ℕ)) : ∀ x ∈ s, x ∈ growStep mask s :=
  fun x hx => List.mem_append_left _ hx

/-- Region growing stays inside `s ∪ mask`. -/
theorem growStep_subset (mask s : List (ℕ × ℕ)) :
    ∀ x ∈ growStep mask s, x ∈ s ∨ x ∈ mask := by
  intro x hx
  rcases List.mem_append.mp hx with h | h
  · exact .inl h
  · exact .inr (List.mem_filter.mp h).1

/-- The start set is contained in the grown region. -/
theorem subset_reach (mask : List (ℕ × ℕ)) :
    ∀ n s, ∀ x ∈ s, x ∈ reach mask n s := by
  intro n
  induction n with
  | zero => exact fun s x hx => hx
  | succ k ih => exact fun s x hx => ih (growStep mask s) x (subset_growStep mask s x hx)

/-- The grown region stays inside `s ∪ mask`. -/
theorem reach_subset (mask : List (ℕ × ℕ)) :
    ∀ n s, ∀ x ∈ reach mask n s, x ∈ s ∨ x ∈ mask := by
  intro n
  induction n with
  | zero => exact fun s x hx => .inl hx
  | succ k ih =>
    intro s x hx
    rcases ih (growStep mask s) x hx with h | h
    · exact growStep_subset mask s x h
    · exact .inr h

/-- A component contains its seed pixel. -/
theorem mem_component_self (mask : List (ℕ × ℕ)) (p : ℕ × ℕ) :
    p ∈ component mask p :=
  subset_reach mask mask.length [p] p (List.mem_singleton.mpr rfl)

/-- A component of a mask pixel stays inside the mask. -/
theorem component_subset (mask : List (ℕ × ℕ)) (p : ℕ × ℕ) (hp : p ∈ mask) :
    ∀ x ∈ component mask p, x ∈ mask := by
  intro x hx
  rcases reach_subset mask mask.length [p] x hx with h | h
  · rw [List.mem_singleton] at h
    exact h ▸ hp
  · exact h

/-- Every list produced by `componentsAux` is a nonempty subset of the
mask. -/
theorem componentsAux_facts (mask : List (ℕ × ℕ)) :
    ∀ N (l : List (ℕ × ℕ)), l.length ≤ N → (∀ x ∈ l, x ∈ mask) →
      ∀ c ∈ componentsAux mask l, c ≠ [] ∧ ∀ x ∈ c, x ∈ mask := by
  intro N
  induction N with
  | zero =>
    intro l hl _ c hc
    have : l = [] := List.length_eq_zero.mp (Nat.le_zero.mp hl)
    rw [this, componentsAux] at hc
    cases hc
  | succ k ih =>
    intro l hl hsub c hc
    cases l with
    | nil =>
      rw [componentsAux] at hc
      cases hc
    | cons p rest =>
      rw [componentsAux] at hc
      simp only [List.mem_cons] at hc
      rcases hc with rfl | hc
      · exact ⟨List.ne_nil_of_mem (mem_component_self mask p),
          component_subset mask p (hsub p (List.mem_cons_self ..))⟩
      · refine ih (rest.filter fun q => !decide (q ∈ component mask p)) ?_ ?_ c hc
        · calc (rest.filter fun q => !decide (q ∈ component mask p)).length
              ≤ rest.length := List.length_filter_le _ _
          _ ≤ k := by
              simp only [List.length_cons] at hl
              omega
        · intro x hx
          exact hsub x (List.mem_cons_of_mem _ (List.mem_filter.mp hx).1)

/-- Every component of the bright mask is a nonempty list of bright
pixels. -/
theorem components_facts (g : Gray) :
    ∀ c ∈ components g, c ≠ [] ∧ ∀ x ∈ c, x ∈ brightCoords g :=
  componentsAux_facts (brightCoords g) (brightCoords g).length (brightCoords g)
    le_rfl (fun _ hx => hx)

/-- The first-strict-max fold either keeps the seed or picks a list
element. -/
theorem foldl_pick_mem (cs : List (List (ℕ × ℕ))) :
    ∀ b, cs.foldl (fun b d => if b.length < d.length then d else b) b = b ∨
      cs.foldl (fun b d => if b.length < d.length then d else b) b ∈ cs := by
  induction cs with
  | nil => exact fun b => .inl rfl
  | cons d ds ih =>
    intro b
    rw [List.foldl_cons]
    rcases ih (if b.length < d.length then d else b) with h | h
    · rw [h]
      split
      · exact .inr (List.mem_cons_self ..)
      · exact .inl rfl
    · exact .inr (List.mem_cons_of_mem _ h)

/-- The selected largest component is one of the components. -/
theorem largestComp_mem : ∀ (cs : List (List (ℕ × ℕ))), cs ≠ [] → largestComp cs ∈ cs := by
  intro cs hne
  cases cs with
  | nil => cases hne rfl
  | cons c cs =>
    rw [largestComp]
    rcases foldl_pick_mem cs c with h | h
    · rw [h]; exact List.mem_cons_self ..
    · exact List.mem_cons_of_mem _ h

/-- A brightness-weighted average of a bounded pixel attribute over a
nonempty positively-weighted list is bounded the same way. -/
theorem centroid_bounds (g : Gray) (l : List (ℕ × ℕ)) (f : ℕ × ℕ → ℕ) (B : ℕ)
    (hne : l ≠ []) (hpos : ∀ c ∈ l, 0 < px g c) (hB : ∀ c ∈ l, f c ≤ B) :
    0 ≤ centroid g l f ∧ centroid g l f ≤ (B : ℚ) := by
  have hW : 0 < (l.map fun c => (px g c : ℚ)).sum := by
    apply List.sum_pos
    · intro x hx
      obtain ⟨c, hc, rfl⟩ := List.mem_map.mp hx
      exact_mod_cast hpos c hc
    · simpa using hne
  have hS : 0 ≤ (l.map fun c => (px g c : ℚ) * (f c : ℚ)).sum := by
    apply List.sum_nonneg
    intro x hx
    obtain ⟨c, hc, rfl⟩ := List.mem_map.mp hx
    positivity
  constructor
  · exact div_nonneg hS hW.le
  · rw [centroid, div_le_iff₀ hW]
    calc (l.map fun c => (px g c : ℚ) * (f c : ℚ)).sum
        ≤ (l.map fun c => (px g c : ℚ) * (B : ℚ)).sum := by
          apply List.sum_le_sum
          intro c hc
          exact mul_le_mul_of_nonneg_left (by exact_mod_cast hB c hc)
            (by positivity)
      _ = (l.map fun c => (px g c : ℚ)).sum * (B : ℚ) := List.sum_map_mul_right ..
      _ = (B : ℚ) * (l.map fun c => (px g c : ℚ)).sum := mul_comm ..

/-- Truncation keeps a rational in `[0, B]` inside `[0, B]` as an integer. -/
theorem pyintQ_bounds (q : ℚ) (B : ℕ) (h0 : 0 ≤ q) (hB : q ≤ (B : ℚ)) :
    0 ≤ pyintQ q ∧ pyintQ q ≤ (B : ℤ) := by
  unfold pyintQ
  rw [if_pos h0]
  refine ⟨Int.floor_nonneg.mpr h0, ?_⟩
  calc ⌊q⌋ ≤ ⌊(B : ℚ)⌋ := Int.floor_le_floor hB
    _ = (B : ℤ) := Int.floor_natCast B

/-- A list of positive naturals has a nonzero sum. -/
theorem weight_sum_ne_zero (g : Gray) (l : List (ℕ × ℕ)) (hne : l ≠ [])
    (hpos : ∀ c ∈ l, 0 < px g c) : (l.map (px g)).sum ≠ 0 := by
  cases l with
  | nil => cases hne rfl
  | cons c cs =>
    have hc := hpos c (List.mem_cons_self ..)
    simp only [List.map_cons, List.sum_cons]
    omega

/-- Shared bound for both weighted-centroid tiers: for any nonempty list of
bright pixels of a well-formed grid with a positive maximum, the weight sum is
nonzero and both truncated centroid coordinates are inside the image. -/
theorem blob_pixel_bounds (g : Gray) (hwf : wellFormedGray g = true)
    (l : List (ℕ × ℕ)) (hne : l ≠ [])
    (hsub : ∀ c ∈ l, c ∈ brightCoords g) (hmax : 0 < maxVal g) :
    (l.map (px g)).sum ≠ 0 ∧
    (0 ≤ pyintQ (centroid g l fun c => c.2) ∧
      pyintQ (centroid g l fun c => c.2) < (gridWidth g : ℤ)) ∧
    (0 ≤ pyintQ (centroid g l fun c => c.1) ∧
      pyintQ (centroid g l fun c => c.1) < (g.length : ℤ)) := by
  obtain ⟨hgne, hw, -⟩ := wf_facts hwf
  have hh : 0 < g.length := List.length_pos.mpr hgne
  have hb : ∀ c ∈ l, c ∈ allCoords g ∧ isBright (maxVal g) (px g c) = true :=
    fun c hc => mem_brightCoords.mp (hsub c hc)
  have hpos : ∀ c ∈ l, 0 < px g c :=
    fun c hc => px_pos_of_bright hmax (hb c hc).2
  have hcoord : ∀ c ∈ l, c.1 < g.length ∧ c.2 < gridWidth g :=
    fun c hc => mem_allCoords_bounds hwf c (hb c hc).1
  refine ⟨weight_sum_ne_zero g l hne hpos, ?_, ?_⟩
  · have hx := centroid_bounds g l (fun c => c.2) (gridWidth g - 1) hne hpos
      (fun c hc => by
        have h2 := (hcoord c hc).2
        show c.2 ≤ gridWidth g - 1
        omega)
    obtain ⟨h0, h1⟩ := pyintQ_bounds _ _ hx.1 hx.2
    refine ⟨h0, lt_of_le_of_lt h1 ?_⟩
    exact_mod_cast Nat.sub_lt hw one_pos
  · have hy := centroid_bounds g l (fun c => c.1) (g.length - 1) hne hpos
      (fun c hc => by
        have h1 := (hcoord c hc).1
        show c.1 ≤ g.length - 1
        omega)
    obtain ⟨h0, h1⟩ := pyintQ_bounds _ _ hy.1 hy.2
    refine ⟨h0, lt_of_le_of_lt h1 ?_⟩
    exact_mod_cast Nat.sub_lt hh one_pos

/-- The brightest-pixel fallback lands inside a well-formed image. -/
theorem argmaxCoord_bounds (g : Gray) (hwf : wellFormedGray g = true) :
    (argmaxCoord g).1 < g.length ∧ (argmaxCoord g).2 < gridWidth g := by
  obtain ⟨c0, hc0, hpx0⟩ := exists_max_coord hwf
  have hfind : ∃ c, ((allCoords g).find? fun c => px g c == maxVal g) = some c := by
    cases hf : (allCoords g).find? fun c => px g c == maxVal g with
    | none =>
      rw [List.find?_eq_none] at hf
      exact absurd (by simpa [beq_iff_eq] using hpx0) (hf c0 hc0)
    | some c => exact ⟨c, rfl⟩
  obtain ⟨c, hc⟩ := hfind
  have hmem := List.mem_of_find?_eq_some hc
  have := mem_allCoords_bounds hwf c hmem
  rw [argmaxCoord, hc]
  exact this

/-- Branch evaluation: scipy path, largest-blob centroid tier. -/
theorem detect_eq_scipy_blob (img : NpImage)
    (hcl : 0 < (components (toGray img)).length)
    (hsum : ((largestComp (components (toGray img))).map (px (toGray img))).sum ≠ 0) :
    detect_sun_position true img =
      .ok (pyintQ (centroid (toGray img) (largestComp (components (toGray img)))
            fun c => c.2),
          pyintQ (centroid (toGray img) (largestComp (components (toGray img)))
            fun c => c.1)) := by
  simp only [detect_sun_position]
  rw [if_pos trivial, if_pos hcl, if_neg hsum]

/-- Branch evaluation: scipy path, brightest-pixel tier. -/
theorem detect_eq_scipy_argmax (img : NpImage)
    (hcl : ¬ 0 < (components (toGray img)).length) :
    detect_sun_position true img =
      .ok (((argmaxCoord (toGray img)).2 : ℤ), ((argmaxCoord (toGray img)).1 : ℤ)) := by
  simp only [detect_sun_position]
  rw [if_pos trivial, if_neg hcl]

/-- Branch evaluation: no-scipy path, weighted-threshold-centroid tier. -/
theorem detect_eq_noscipy_centroid (img : NpImage)
    (hlen : 10 < (brightCoords (toGray img)).length)
    (hsum : ((brightCoords (toGray img)).map (px (toGray img))).sum ≠ 0) :
    detect_sun_position false img =
      .ok (pyintQ (centroid (toGray img) (brightCoords (toGray img)) fun c => c.2),
          pyintQ (centroid (toGray img) (brightCoords (toGray img)) fun c => c.1)) := by
  simp only [detect_sun_position]
  rw [if_neg (by simp), if_pos hlen, if_neg hsum]

/-- Branch evaluation: no-scipy path, brightest-pixel tier. -/
theorem detect_eq_noscipy_argmax (img : NpImage)
    (hlen : ¬ 10 < (brightCoords (toGray img)).length) :
    detect_sun_position false img =
      .ok (((argmaxCoord (toGray img)).2 : ℤ), ((argmaxCoord (toGray img)).1 : ℤ)) := by
  simp only [detect_sun_position]
  rw [if_neg (by simp), if_neg hlen]

/-- C9 (amended): on every well-formed image with a positive maximum
brightness, sun detection never raises — with or without scipy it degrades
through the fallback tiers and returns a pixel coordinate inside the image
bounds. -/
theorem detect_sun_never_fails_on_bright (hasScipy : Bool) (img : NpImage)
    (hwf : wellFormed img = true) (hmax : 0 < maxVal (toGray img)) :
    ∃ p : ℤ × ℤ, detect_sun_position hasScipy img = .ok p ∧
      0 ≤ p.1 ∧ p.1 < (gridWidth (toGray img) : ℤ) ∧
      0 ≤ p.2 ∧ p.2 < ((toGray img).length : ℤ) := by
  have hwfg : wellFormedGray (toGray img) = true := hwf
  cases hasScipy with
  | true =>
    by_cases hcl : 0 < (components (toGray img)).length
    · have hcompne : components (toGray img) ≠ [] := by
        intro h
        rw [h] at hcl
        simp at hcl
      have hblob := largestComp_mem _ hcompne
      obtain ⟨hbne, hbsub⟩ := components_facts _ _ hblob
      obtain ⟨hsum, hxb, hyb⟩ := blob_pixel_bounds _ hwfg _ hbne hbsub hmax
      exact ⟨_, detect_eq_scipy_blob img hcl hsum, hxb.1, hxb.2, hyb.1, hyb.2⟩
    · obtain ⟨h1, h2⟩ := argmaxCoord_bounds _ hwfg
      refine ⟨_, detect_eq_scipy_argmax img hcl, Int.natCast_nonneg _, ?_,
        Int.natCast_nonneg _, ?_⟩
      · show ((argmaxCoord (toGray img)).2 : ℤ) < (gridWidth (toGray img) : ℤ)
        exact_mod_cast h2
      · show ((argmaxCoord (toGray img)).1 : ℤ) < ((toGray img).length : ℤ)
        exact_mod_cast h1
  | false =>
    by_cases hlen : 10 < (brightCoords (toGray img)).length
    · have hmne : brightCoords (toGray img) ≠ [] := by
        intro h
        rw [h] at hlen
        simp at hlen
      obtain ⟨hsum, hxb, hyb⟩ := blob_pixel_bounds _ hwfg _ hmne (fun _ hc => hc) hmax
      exact ⟨_, detect_eq_noscipy_centroid img hlen hsum, hxb.1, hxb.2, hyb.1, hyb.2⟩
    · obtain ⟨h1, h2⟩ := argmaxCoord_bounds _ hwfg
      refine ⟨_, detect_eq_noscipy_argmax img hlen, Int.natCast_nonneg _, ?_,
        Int.natCast_nonneg _, ?_⟩
      · show ((argmaxCoord (toGray img)).2 : ℤ) < (gridWidth (toGray img) : ℤ)
        exact_mod_cast h2
      · show ((argmaxCoord (toGray img)).1 : ℤ) < ((toGray img).length : ℤ)
        exact_mod_cast h1

/-- Witness for C9 (amended) on a concrete 2×2 image with positive maximum
brightness. -/
theorem detect_sun_never_fails_on_bright_witness :
    (wellFormed (NpImage.gray2d [[0, 5], [1, 2]]) = true ∧
      0 < maxVal (toGray (NpImage.gray2d [[0, 5], [1, 2]]))) ∧
    (∃ p : ℤ × ℤ,
      detect_sun_position false (NpImage.gray2d [[0, 5], [1, 2]]) = .ok p ∧
      0 ≤ p.1 ∧ p.1 < (gridWidth (toGray (NpImage.gray2d [[0, 5], [1, 2]])) : ℤ) ∧
      0 ≤ p.2 ∧ p.2 < ((toGray (NpImage.gray2d [[0, 5], [1, 2]])).length : ℤ)) :=
  ⟨⟨by decide, by decide⟩,
    detect_sun_never_fails_on_bright false (NpImage.gray2d [[0, 5], [1, 2]])
      (by decide) (by decide)⟩

/-- C9 counterexample: on the well-formed all-black 11×1 image, the detector
does fail — all 11 pixels pass the `max * 0.999` threshold, so the
weighted-centroid tier divides by the all-zero weight sum (`np.average`
raises `ZeroDivisionError`) instead of returning a coordinate. -/
theorem detect_sun_fails_on_all_black :
    wellFormed (NpImage.gray2d (List.replicate 11 [0])) = true ∧
    detect_sun_position false (NpImage.gray2d (List.replicate 11 [0])) =
      .error .zeroDivisionError := by
  constructor
  · decide
  · rfl

end Analemma
